import Mathlib

/-!
Verification of the `miniscript` engine (`src/miniscript`), a small
Ansible-like script interpreter.  The development shallowly embeds the
parts of the code that the claims are about:

* `_task.py`: `Result.__init__`, `When.__call__`, `Task.__call__`,
  `Task._execute_one`;
* `_engine.py`: `Script.__call__`, `Engine._load_task`;
* `tasks.py`: `Block`, `Fail`, `Return`;
* `_types.py`: the exception taxonomy (`FinishScript` derives from
  `BaseException`, everything else from `Exception`).

Python dictionaries (the `Context._data` of `_context.py`) are embedded as
association lists with dict-update semantics; templating is abstracted by
quantifying over evaluator functions (guards and loop resolvers), and a
task's `validate` + `execute` pair is abstracted as a `body` function from
the execution context to an outcome, exactly as `_execute_one` consumes it.
-/

namespace Miniscript

/-- JSON-ish runtime values, plus the two object kinds relevant to the
claims: `Result` objects stored in the scope by `register`, and the jinja2
`Undefined` sentinel checked by `Script.__call__`. -/
inductive Value where
  | null : Value
  | bool (b : Bool) : Value
  | int (n : Int) : Value
  | str (s : String) : Value
  | list (xs : List Value) : Value
  | map (kvs : List (String × Value)) : Value
  | result (fields : List (String × Value)) : Value
  | undefined : Value
deriving Repr

/-- A scope (`Context._data` in `_context.py`): a Python dict from variable
names to values, embedded as an association list in insertion order. -/
abbrev Ctx : Type := List (String × Value)

/-- Python dict assignment `d[k] = v`: replace the value of an existing key
in place, otherwise append the new key at the end. -/
def setVar : Ctx → String → Value → Ctx
  | [], k, v => [(k, v)]
  | (k', v') :: rest, k, v =>
      if k' = k then (k, v) :: rest else (k', v') :: setVar rest k v

/-- Python dict lookup `d.get(k)`. -/
def lookupVar : Ctx → String → Option Value
  | [], _ => none
  | (k', v') :: rest, k => if k' = k then some v' else lookupVar rest k

/-- `Context.copy` (`_context.py` line 143): `Context(self._env, self._data)`
builds a fresh dict via `dict(self._data)`, i.e. a shallow copy of the
top-level entries.  On immutable association lists the copy is the list
itself; isolation shows up as the parent list never being rebound. -/
def ctxCopy (c : Ctx) : Ctx := c

/-- The exceptions of `_types.py` (plus the Python built-ins the code can
raise).  `ExecutionFailed` and its subclass `Aborted` derive from the
library's `Error`; `AttributeError` and `RuntimeError` are Python
built-ins; `other` stands for an arbitrary further `Exception` subclass,
carrying its class name.  `FinishScript` is *not* here: it derives from
`BaseException` and is modelled as a separate outcome constructor. -/
inductive Exc where
  | executionFailed (msg : String) : Exc
  | aborted (msg : String) : Exc
  | unknownTask (msg : String) : Exc
  | invalidScript (msg : String) : Exc
  | invalidDefinition (msg : String) : Exc
  | invalidTask (msg : String) : Exc
  | attributeError (msg : String) : Exc
  | runtimeError (msg : String) : Exc
  | other (cls : String) (msg : String) : Exc
deriving Repr, DecidableEq

/-- `exc.__class__.__name__`. -/
def excClass : Exc → String
  | .executionFailed _ => "ExecutionFailed"
  | .aborted _ => "Aborted"
  | .unknownTask _ => "UnknownTask"
  | .invalidScript _ => "InvalidScript"
  | .invalidDefinition _ => "InvalidDefinition"
  | .invalidTask _ => "InvalidTask"
  | .attributeError _ => "AttributeError"
  | .runtimeError _ => "RuntimeError"
  | .other cls _ => cls

/-- `str(exc)`. -/
def excMsg : Exc → String
  | .executionFailed m => m
  | .aborted m => m
  | .unknownTask m => m
  | .invalidScript m => m
  | .invalidDefinition m => m
  | .invalidTask m => m
  | .attributeError m => m
  | .runtimeError m => m
  | .other _ m => m

/-- `isinstance(exc, _types.Aborted)` (`Aborted` subclasses
`ExecutionFailed`, which subclasses `Error`/`RuntimeError`). -/
def isAborted : Exc → Bool
  | .aborted _ => true
  | _ => false

/-- `isinstance(exc, _types.ExecutionFailed)`: true for `ExecutionFailed`
itself and its subclass `Aborted`. -/
def isExecutionFailed : Exc → Bool
  | .executionFailed _ => true
  | .aborted _ => true
  | _ => false

/-- Python truthiness (`bool(v)`), used by `all(...)` in `When.__call__`:
`None`, `False`, `0`, empty strings and empty containers are falsy; any
other object — including a `Result` — is truthy; a jinja2 `Undefined`
renders falsy. -/
def truthy : Value → Bool
  | .null => false
  | .bool b => b
  | .int n => n ≠ 0
  | .str s => s ≠ ""
  | .list xs => !xs.isEmpty
  | .map kvs => !kvs.isEmpty
  | .result _ => true
  | .undefined => false

mutual

/-- `str(v)` as used by f-string interpolation in error messages
(`f"got \x7bvalues\x7d"`). -/
def strValue : Value → String
  | .null => "None"
  | .bool b => if b then "True" else "False"
  | .int n => toString n
  | .str s => s
  | .list xs => "[" ++ strValues xs ++ "]"
  | .map kvs => "\x7b" ++ strPairs kvs ++ "\x7d"
  | .result _ => "Result"
  | .undefined => "Undefined"

/-- `repr(v)`, used for elements inside containers. -/
def reprValue : Value → String
  | .null => "None"
  | .bool b => if b then "True" else "False"
  | .int n => toString n
  | .str s => "'" ++ s ++ "'"
  | .list xs => "[" ++ strValues xs ++ "]"
  | .map kvs => "\x7b" ++ strPairs kvs ++ "\x7d"
  | .result _ => "Result"
  | .undefined => "Undefined"

/-- Comma-separated `repr`s of list elements. -/
def strValues : List Value → String
  | [] => ""
  | [x] => reprValue x
  | x :: xs => reprValue x ++ ", " ++ strValues xs

/-- Comma-separated `repr(k): repr(v)` pairs of a dict. -/
def strPairs : List (String × Value) → String
  | [] => ""
  | [(k, v)] => "'" ++ k ++ "': " ++ reprValue v
  | (k, v) :: kvs => "'" ++ k ++ "': " ++ reprValue v ++ ", " ++ strPairs kvs

end

/-!
## `Result` (`_task.py` lines 26-54)

`Result.__init__` first does `self.__dict__.update(results)` and then
assigns the four reserved attributes, so the reserved attributes always
win over same-named keys of the `results` mapping.
-/

/-- A `Result` object: its `__dict__`. -/
structure TResult where
  fields : List (String × Value)
deriving Repr

/-- `d.update(other)` on a Python dict starting from `d`. -/
def dictUpdate (d : Ctx) (other : List (String × Value)) : Ctx :=
  other.foldl (fun acc kv => setVar acc kv.1 kv.2) d

/-- `Result.__init__(results, failure=None, skipped=False)`:
`__dict__.update(results)`, then `succeeded = failure is None`,
`failed = not succeeded`, `failure = failure`, `skipped = skipped`. -/
def mkResult (results : List (String × Value)) (failure : Option String)
    (skipped : Bool) : TResult :=
  let d := dictUpdate [] results
  let d := setVar d "succeeded" (Value.bool failure.isNone)
  let d := setVar d "failed" (Value.bool (!failure.isNone))
  let d := setVar d "failure" (failure.elim Value.null Value.str)
  let d := setVar d "skipped" (Value.bool skipped)
  ⟨d⟩

/-!
## Tasks (`_task.py` lines 78-416)

Templating (`Environment.evaluate_code` / `evaluate_recursive` of
`_context.py`) is abstracted: a `when` condition is a function from the
scope to a value or a raised exception, and a `loop` expression is a
function from the scope to the list it resolves to.  The pair
`validate(params, context); execute(params, context)` — the whole body of
the inner `try` of `_execute_one` up to the `values` check — is abstracted
as `body`: it may return a value together with the (possibly mutated)
scope, raise an `Exception` (again with the scope as mutated so far), or
raise `FinishScript` (a `BaseException`). -/

/-- Outcome of running a piece of code against a scope: normal return,
a raised `Exception` subclass, or a raised `FinishScript`
(`BaseException`, invisible to `except Exception`). -/
inductive Out (α : Type) where
  | ok (a : α) (ctx : Ctx) : Out α
  | exc (e : Exc) (ctx : Ctx) : Out α
  | finish (v : Value) : Out α
deriving Repr

/-- A loaded task: the top-level parameters of `Task.__init__`
(`when`, `ignore_errors`, `register`, `loop`) plus the abstracted body. -/
structure Task where
  name : String
  whenConds : Option (List (Ctx → Except Exc Value))
  ignore_errors : Bool
  register : Option String
  loop : Option (Ctx → List Value)
  body : Ctx → Out Value

/-- `When.__call__` (`_task.py` lines 72-75):
`all(evaluate_code(expr, context) for expr in definition)` — short-circuit
conjunction under Python truthiness; an exception from any condition
propagates. -/
def evalWhen : List (Ctx → Except Exc Value) → Ctx → Except Exc Bool
  | [], _ => .ok true
  | g :: rest, c =>
      match g c with
      | .error e => .error e
      | .ok v => if truthy v then evalWhen rest c else .ok false

/-- The scope a single execution runs against (`_execute_one` lines
360-362): with a `loop`, a shallow copy of the parent scope with `item`
bound; otherwise the parent scope itself. -/
def childCtx (t : Task) (ctx : Ctx) (item : Value) : Ctx :=
  match t.loop with
  | some _ => setVar (ctxCopy ctx) "item" item
  | none => ctx

/-- What the parent scope is after a single execution: with a `loop` the
mutated scope is the discarded copy, so the parent keeps its old value;
without a loop the body mutated the parent scope itself. -/
def parentAfter (t : Task) (ctx0 : Ctx) (c : Ctx) : Ctx :=
  match t.loop with
  | some _ => ctx0
  | none => c

/-- `f"\x7bexc.__class__.__name__\x7d: \x7bexc\x7d"` — the failure text
stored on an ignored-error `Result`. -/
def excStr (e : Exc) : String := excClass e ++ ": " ++ excMsg e

/-- The wrapping of a non-`Aborted` body exception
(`_task.py` lines 393-394). -/
def failWrapMsg (name : String) (e : Exc) : String :=
  "Failed to execute task " ++ name ++ ". " ++ excStr e

/-- The `try: validate/execute/values-check except Exception:` part of
`_execute_one` (`_task.py` lines 378-397), after the `when` guard has
passed.  `ctx` is the scope the body runs against, `ret` maps the scope as
left by the body to what the parent sees. -/
def handleBody (t : Task) (ctx : Ctx) (ret : Ctx → Ctx) : Out TResult :=
  match t.body ctx with
  | .finish v => .finish v
  | .exc e c =>
      if t.ignore_errors then
        .ok (mkResult [] (some (excStr e)) false) (ret c)
      else
        .exc (.executionFailed
          (if isAborted e then "Execution aborted: " ++ excMsg e
           else failWrapMsg t.name e)) (ret c)
  | .ok v c =>
      match v with
      | .null => .ok (mkResult [] none false) (ret c)
      | .map kvs => .ok (mkResult kvs none false) (ret c)
      | _ =>
          -- `raise RuntimeError(...)` sits inside the same `try`, so it is
          -- caught by the `except Exception` handler below it.
          let e := Exc.runtimeError
            ("a task must return None or a mapping, got " ++ strValue v)
          if t.ignore_errors then
            .ok (mkResult [] (some (excStr e)) false) (ret c)
          else
            .exc (.executionFailed (failWrapMsg t.name e)) (ret c)

/-- `Task._execute_one` (`_task.py` lines 357-397): bind `item` on a copy
when looping, evaluate the `when` guard (an exception there is wrapped in
`ExecutionFailed` and never reaches the `ignore_errors` handler; a falsy
guard yields `Result(\x7b\x7d, skipped=True)` without touching the body),
then run the body under the error handling of `handleBody`. -/
def executeOne (t : Task) (ctx0 : Ctx) (item : Value) : Out TResult :=
  let ctx := childCtx t ctx0 item
  let ret := parentAfter t ctx0
  match t.whenConds with
  | some conds =>
      match evalWhen conds ctx with
      | .error e =>
          .exc (.executionFailed
            ("Failed to evaluate condition for " ++ t.name ++ ". "
             ++ excClass e ++ ": " ++ excMsg e)) ctx0
      | .ok false => .ok (mkResult [] none true) (ret ctx)
      | .ok true => handleBody t ctx ret
  | none => handleBody t ctx ret

/-- The list comprehension
`[self._execute_one(context, item) for item in loop]` of `Task.__call__`:
iterations run in order against the shared parent scope, each on its own
copy; an exception or `FinishScript` aborts the comprehension. -/
def runIters (t : Task) (ctx : Ctx) : List Value → Out (List TResult)
  | [] => .ok [] ctx
  | it :: rest =>
      match executeOne t ctx it with
      | .ok r _ =>
          match runIters t ctx rest with
          | .ok rs c => .ok (r :: rs) c
          | .exc e c => .exc e c
          | .finish v => .finish v
      | .exc e c => .exc e c
      | .finish v => .finish v

/-- `Task.__call__` (`_task.py` lines 337-355): without `loop`, one
execution and `context[register] = result`; with `loop`, resolve the loop
expression, run one execution per item, and store
`\x7b"results": [...]\x7d` under `register`. -/
def taskCall (t : Task) (ctx : Ctx) : Out Unit :=
  match t.loop with
  | none =>
      match executeOne t ctx Value.null with
      | .ok r c =>
          .ok () (match t.register with
                  | some n => setVar c n (Value.result r.fields)
                  | none => c)
      | .exc e c => .exc e c
      | .finish v => .finish v
  | some f =>
      match runIters t ctx (f ctx) with
      | .ok rs c =>
          .ok () (match t.register with
                  | some n =>
                      setVar c n (Value.map
                        [("results",
                          Value.list (rs.map fun r => Value.result r.fields))])
                  | none => c)
      | .exc e c => .exc e c
      | .finish v => .finish v

/-!
## Built-in tasks (`tasks.py`) and the script runner (`_engine.py`)
-/

/-- `Block.execute` (`tasks.py` lines 53-59): run the nested tasks in
order against the same scope; it returns `None`.  Exceptions and
`FinishScript` propagate out of the `for` loop unhandled. -/
def runTasksSeq : List Task → Ctx → Out Unit
  | [], ctx => .ok () ctx
  | t :: rest, ctx =>
      match taskCall t ctx with
      | .ok _ c => runTasksSeq rest c
      | .exc e c => .exc e c
      | .finish v => .finish v

/-- The body of a `block` task whose nested tasks have been loaded
(`Block.validate` resolves the raw definitions, `Block.execute` runs
them and returns `None`). -/
def blockBody (ts : List Task) (ctx : Ctx) : Out Value :=
  match runTasksSeq ts ctx with
  | .ok _ c => .ok Value.null c
  | .exc e c => .exc e c
  | .finish v => .finish v

/-- A `block` task with default top-level parameters and the given nested
tasks. -/
def mkBlock (ts : List Task) : Task :=
  ⟨"block", none, false, none, none, blockBody ts⟩

/-- `Return.execute` (`tasks.py` lines 136-141):
`raise FinishScript(params.get('result'))` — here with a literal result
value. -/
def returnTask (v : Value) : Task :=
  ⟨"return", none, false, none, none, fun _ => .finish v⟩

/-- `Fail.execute` (`tasks.py` lines 80-85): `raise Aborted(params["msg"])`
— here with a literal message. -/
def failTask (m : String) : Task :=
  ⟨"fail", none, false, none, none, fun c => .exc (.aborted m) c⟩

/-- A `vars`-style task (`Vars.execute`, `tasks.py` lines 162-168): write
the given literal bindings into the scope and return `None`. -/
def varsTask (kvs : List (String × Value)) : Task :=
  ⟨"vars", none, false, none, none,
   fun c => .ok Value.null (dictUpdate c kvs)⟩

/-- `_context.materialize`: recursively evaluate lazy namespaces.  The
embedding carries no lazy namespaces, so values are already material. -/
def materialize (v : Value) : Value := v

/-- Outcome of `Script.__call__` / `Engine.execute`: an early value via
`FinishScript`, `None` after the last task, or a raised
`ExecutionFailed`. -/
inductive ScriptOut where
  | finished (v : Value) : ScriptOut
  | done (ctx : Ctx) : ScriptOut
  | failed (e : Exc) : ScriptOut
deriving Repr

/-- `Script.__call__` (`_engine.py` lines 69-89): run the top-level tasks
in order; catch `FinishScript`, materialize its payload, fail on an
`Undefined` result and otherwise return the value; re-raise
`ExecutionFailed` as is; wrap any other `Exception` with the task name and
class. -/
def scriptCall : List Task → Ctx → ScriptOut
  | [], ctx => .done ctx
  | t :: rest, ctx =>
      match taskCall t ctx with
      | .ok _ c => scriptCall rest c
      | .finish v =>
          match materialize v with
          | .undefined => .failed (.executionFailed "Script returned undefined value")
          | value => .finished value
      | .exc e _ =>
          if isExecutionFailed e then .failed e
          else .failed (.executionFailed
            ("Failed to execute task " ++ t.name ++ ". "
             ++ excClass e ++ ": " ++ excMsg e))

/-!
## Task loading (`Engine._load_task`, `_engine.py` lines 257-276)

`_load_task` intersects the definition's keys with the registered task
names.  Zero matches raise `_types.UnknownTask`.  Two or more evaluate
`_types.InvalidTask` — but `_types.py` defines no attribute named
`InvalidTask` (its classes are `Error`, `ExecutionFailed`, `InvalidScript`,
`InvalidDefinition`, `UnknownTask`, `FinishScript`, `Aborted`), so the
attribute access itself raises `AttributeError`.  Python attribute lookup
on the module is made explicit below. -/

/-- The module-level names `_types.py` actually defines. -/
def typesModuleMembers : List String :=
  ["SourceType", "JsonType", "ParamsType", "Error", "ExecutionFailed",
   "InvalidScript", "InvalidDefinition", "UnknownTask", "FinishScript",
   "Aborted"]

/-- `raise _types.<cls>(msg)`: look the class up on the module — a missing
attribute raises `AttributeError` before any instance is constructed —
then construct the exception. -/
def raiseFromTypes (cls msg : String) : Exc :=
  if typesModuleMembers.contains cls then
    match cls with
    | "UnknownTask" => .unknownTask msg
    | "InvalidScript" => .invalidScript msg
    | "InvalidDefinition" => .invalidDefinition msg
    | "ExecutionFailed" => .executionFailed msg
    | "Aborted" => .aborted msg
    | c => .other c msg
  else
    .attributeError
      ("module 'miniscript._types' has no attribute '" ++ cls ++ "'")

/-- `', '.join(items)`. -/
def joinComma (items : List String) : String :=
  String.intercalate ", " items

/-- `Engine._load_task` restricted to kind identification: intersect the
definition keys with the registered task names; zero matches →
`raise _types.UnknownTask(...)`; more than one →
`raise _types.InvalidTask(...)`; exactly one → load that kind. -/
def loadTaskKind (registered : List String) (defnKeys : List String) :
    Except Exc String :=
  let matching := defnKeys.filter registered.contains
  match matching with
  | [] => .error (raiseFromTypes "UnknownTask"
      ("Task defined by " ++ joinComma defnKeys ++ " is not known"))
  | [name] => .ok name
  | more => .error (raiseFromTypes "InvalidTask"
      ("Item with keys " ++ String.intercalate "," more ++ " is ambiguous"))

/-- The task kinds built into every engine (`Engine.__init__` copies
`_BUILTINS`, keyed by the lower-cased class names of `tasks.py`). -/
def builtinKinds : List String := ["block", "fail", "log", "return", "vars"]

/-- The check of `_execute_one` lines 381-383: `values` is acceptable iff
it is `None` or a `Mapping`. -/
def isMappingOrNone : Value → Bool
  | .null => true
  | .map _ => true
  | _ => false

/-- Iteration record for a looped task: the body, invoked at each child
scope (a copy of the parent with `item` bound to the element, in order),
returns the given mapping and leaves the given (discarded) child scope. -/
def bodyRuns (t : Task) (ctx : Ctx) :
    List Value → List (List (String × Value)) → List Ctx → Prop
  | [], [], [] => True
  | it :: its, kvs :: vss, c :: cs =>
      t.body (setVar (ctxCopy ctx) "item" it) = .ok (Value.map kvs) c
      ∧ bodyRuns t ctx its vss cs
  | _, _, _ => False

/-!
## Basic dictionary lemmas
-/

theorem lookup_setVar_same (d : Ctx) (k : String) (v : Value) :
    lookupVar (setVar d k v) k = some v := by
  induction d with
  | nil => simp [setVar, lookupVar]
  | cons kv rest ih =>
      by_cases h : kv.1 = k
      · simp [setVar, h, lookupVar]
      · simp [setVar, h, lookupVar, ih]

theorem lookup_setVar_other (d : Ctx) (k k' : String) (v : Value)
    (h : k' ≠ k) : lookupVar (setVar d k v) k' = lookupVar d k' := by
  induction d with
  | nil => simp [setVar, lookupVar, Ne.symm h]
  | cons kv rest ih =>
      obtain ⟨a, b⟩ := kv
      by_cases hk : a = k
      · subst hk
        simp [setVar, lookupVar, Ne.symm h]
      · by_cases hk' : a = k'
        · subst hk'
          simp [setVar, hk, lookupVar]
        · simp [setVar, hk, lookupVar, hk', ih]

/-!
## The claims
-/

/-- **C10.**  For every mapping returned by a successful task body, the
constructed `Result` exposes the mapping's entries as fields, but the
reserved fields `succeeded`, `failed`, `failure` and `skipped` always
reflect the engine-determined outcome and override any same-named keys
from the body's mapping: `succeeded` is true exactly when no failure
message is present, `failed` is its negation, and `failure`/`skipped` come
from the execution outcome. -/
theorem c10_result_reserved_fields_override
    (kvs : List (String × Value)) (failure : Option String) (skipped : Bool) :
    lookupVar (mkResult kvs failure skipped).fields "succeeded"
        = some (Value.bool failure.isNone)
    ∧ lookupVar (mkResult kvs failure skipped).fields "failed"
        = some (Value.bool (!failure.isNone))
    ∧ lookupVar (mkResult kvs failure skipped).fields "failure"
        = some (failure.elim Value.null Value.str)
    ∧ lookupVar (mkResult kvs failure skipped).fields "skipped"
        = some (Value.bool skipped)
    ∧ ∀ k, k ≠ "succeeded" → k ≠ "failed" → k ≠ "failure" → k ≠ "skipped" →
        lookupVar (mkResult kvs failure skipped).fields k
          = lookupVar (dictUpdate [] kvs) k := by
  unfold mkResult
  refine ⟨?_, ?_, ?_, ?_, ?_⟩
  · rw [lookup_setVar_other _ _ _ _ (by decide),
        lookup_setVar_other _ _ _ _ (by decide),
        lookup_setVar_other _ _ _ _ (by decide),
        lookup_setVar_same]
  · rw [lookup_setVar_other _ _ _ _ (by decide),
        lookup_setVar_other _ _ _ _ (by decide),
        lookup_setVar_same]
  · rw [lookup_setVar_other _ _ _ _ (by decide), lookup_setVar_same]
  · rw [lookup_setVar_same]
  · intro k h1 h2 h3 h4
    rw [lookup_setVar_other _ _ _ _ h4, lookup_setVar_other _ _ _ _ h3,
        lookup_setVar_other _ _ _ _ h2, lookup_setVar_other _ _ _ _ h1]

/-- Witness for C10: a body mapping `\x7b"failed": True, "x": 1\x7d` on a
succeeded execution cannot make the `Result` report failure, and the
non-reserved key `x` is exposed. -/
theorem c10_result_reserved_fields_override_witness :
    lookupVar (mkResult [("failed", Value.bool true), ("x", Value.int 1)]
        none false).fields "failed" = some (Value.bool false)
    ∧ lookupVar (mkResult [("failed", Value.bool true), ("x", Value.int 1)]
        none false).fields "succeeded" = some (Value.bool true)
    ∧ lookupVar (mkResult [("failed", Value.bool true), ("x", Value.int 1)]
        none false).fields "x" = some (Value.int 1) := by
  obtain ⟨h1, h2, h3, h4, h5⟩ := c10_result_reserved_fields_override
    [("failed", Value.bool true), ("x", Value.int 1)] none false
  refine ⟨h2, h1, ?_⟩
  rw [h5 "x" (by decide) (by decide) (by decide) (by decide)]
  rfl

/-- Whatever the body leaves behind, the parent scope a single execution
reports back for the scope it started from is the loop-mode original or
the non-loop mutated scope; at the skipped/guard stage nothing has
mutated, so it is the original scope. -/
theorem parentAfter_childCtx (t : Task) (ctx : Ctx) (item : Value) :
    parentAfter t ctx (childCtx t ctx item) = ctx := by
  cases hl : t.loop <;> simp [parentAfter, childCtx, hl]

theorem executeOne_when_false (t : Task) (ctx : Ctx) (item : Value)
    (conds : List (Ctx → Except Exc Value))
    (hwhen : t.whenConds = some conds)
    (hfalse : evalWhen conds (childCtx t ctx item) = .ok false) :
    executeOne t ctx item
      = .ok (mkResult [] none true) (parentAfter t ctx (childCtx t ctx item)) := by
  simp only [executeOne, hwhen, hfalse]

theorem executeOne_when_raises (t : Task) (ctx : Ctx) (item : Value)
    (conds : List (Ctx → Except Exc Value)) (e : Exc)
    (hwhen : t.whenConds = some conds)
    (hraise : evalWhen conds (childCtx t ctx item) = .error e) :
    executeOne t ctx item = .exc (.executionFailed
      ("Failed to evaluate condition for " ++ t.name ++ ". "
       ++ excClass e ++ ": " ++ excMsg e)) ctx := by
  simp only [executeOne, hwhen, hraise]

/-- **C7.**  For every task whose `when` guard evaluates to false, the
task's body is never invoked (the outcome is the same for every body), no
scope mutation occurs (the parent scope is returned unchanged), and the
produced `Result` has `skipped = true` and carries no other fields. -/
theorem c7_false_guard_skips_task
    (t : Task) (ctx : Ctx) (item : Value)
    (conds : List (Ctx → Except Exc Value))
    (hwhen : t.whenConds = some conds)
    (hfalse : evalWhen conds (childCtx t ctx item) = .ok false) :
    executeOne t ctx item = .ok (mkResult [] none true) ctx
    ∧ (mkResult [] none true).fields
        = [("succeeded", Value.bool true), ("failed", Value.bool false),
           ("failure", Value.null), ("skipped", Value.bool true)]
    ∧ ∀ b : Ctx → Out Value,
        executeOne { t with body := b } ctx item = executeOne t ctx item := by
  refine ⟨?_, by rfl, ?_⟩
  · rw [executeOne_when_false t ctx item conds hwhen hfalse,
        parentAfter_childCtx]
  · intro b
    rw [executeOne_when_false t ctx item conds hwhen hfalse,
        executeOne_when_false { t with body := b } ctx item conds hwhen hfalse]
    cases hl : t.loop <;> simp [parentAfter, childCtx, hl]

/-- Witness for C7: a task whose guard is the constant `False` and whose
body would write `z` into the scope is skipped with an untouched scope. -/
theorem c7_false_guard_skips_task_witness :
    executeOne
      ⟨"t", some [fun _ => .ok (Value.bool false)], false, none, none,
       fun c => .ok Value.null (setVar c "z" (Value.int 9))⟩
      [("a", Value.int 1)] Value.null
      = .ok (mkResult [] none true) [("a", Value.int 1)] :=
  (c7_false_guard_skips_task _ _ _ [fun _ => .ok (Value.bool false)]
    rfl rfl).1

/-- **C4.**  For every task whose `when` guard raises an exception during
evaluation, the task raises `ExecutionFailed` ("Failed to evaluate
condition ...") regardless of the task's `ignore_errors` flag: the guard
failure is never converted to a failed `Result`. -/
theorem c4_guard_exception_always_fatal
    (t : Task) (ctx : Ctx) (item : Value)
    (conds : List (Ctx → Except Exc Value)) (e : Exc)
    (hwhen : t.whenConds = some conds)
    (hraise : evalWhen conds (childCtx t ctx item) = .error e) :
    executeOne t ctx item = .exc (.executionFailed
      ("Failed to evaluate condition for " ++ t.name ++ ". "
       ++ excClass e ++ ": " ++ excMsg e)) ctx
    ∧ ∀ ig : Bool,
        executeOne { t with ignore_errors := ig } ctx item
          = executeOne t ctx item := by
  refine ⟨executeOne_when_raises t ctx item conds e hwhen hraise, ?_⟩
  intro ig
  rw [executeOne_when_raises t ctx item conds e hwhen hraise,
      executeOne_when_raises { t with ignore_errors := ig } ctx item conds e
        hwhen hraise]

/-- Witness for C4: a guard raising `ZeroDivisionError` makes the task
raise `ExecutionFailed` even though `ignore_errors` is set. -/
theorem c4_guard_exception_always_fatal_witness :
    executeOne
      ⟨"t", some [fun _ => .error (.other "ZeroDivisionError" "division by zero")],
       true, none, none, fun c => .ok Value.null c⟩
      [] Value.null
      = .exc (.executionFailed
          ("Failed to evaluate condition for t. "
           ++ "ZeroDivisionError: division by zero")) [] :=
  (c4_guard_exception_always_fatal _ _ _
    [fun _ => .error (.other "ZeroDivisionError" "division by zero")]
    (.other "ZeroDivisionError" "division by zero") rfl rfl).1

/-- **C5 (counterexample).**  The claim says a body returning a value that
is neither `None` nor a mapping fails fatally even under
`ignore_errors=true`.  It does not: the `raise RuntimeError` sits inside
the same `try` as `execute`, so with `ignore_errors=true` it is caught and
converted to a failed `Result`; the script runs to completion instead of
terminating with an error. -/
theorem c5_nonmapping_ignored_counterexample :
    executeOne
      ⟨"test", none, true, none, none, fun c => .ok (Value.int 42) c⟩
      [] Value.null
      = .ok (mkResult []
          (some "RuntimeError: a task must return None or a mapping, got 42")
          false) []
    ∧ scriptCall
        [⟨"test", none, true, none, none, fun c => .ok (Value.int 42) c⟩]
        [] = .done []
    ∧ ScriptOut.done ([] : Ctx)
        ≠ .failed (.executionFailed
            ("Failed to execute task test. RuntimeError: "
             ++ "a task must return None or a mapping, got 42")) := by
  refine ⟨rfl, rfl, by intro h; exact ScriptOut.noConfusion h⟩

/-- **C5 (amended).**  For every task whose body returns a value that is
neither `None` nor a mapping, execution raises a fatal `ExecutionFailed`
when `ignore_errors` is false; when `ignore_errors` is true the
`RuntimeError` is caught like any other body failure and converted to a
failed `Result`. -/
theorem c5_nonmapping_fatal_unless_ignored
    (t : Task) (ctx : Ctx) (v : Value) (c' : Ctx)
    (hwhen : t.whenConds = none) (hloop : t.loop = none)
    (hbody : t.body ctx = .ok v c')
    (hv : isMappingOrNone v = false) :
    (t.ignore_errors = false →
      executeOne t ctx Value.null = .exc (.executionFailed
        (failWrapMsg t.name (.runtimeError
          ("a task must return None or a mapping, got " ++ strValue v)))) c')
    ∧ (t.ignore_errors = true →
      executeOne t ctx Value.null = .ok (mkResult []
        (some (excStr (.runtimeError
          ("a task must return None or a mapping, got " ++ strValue v))))
        false) c') := by
  constructor <;> intro hig <;>
    cases v <;>
      simp_all [executeOne, childCtx, parentAfter, handleBody,
        isMappingOrNone]

/-- Witness for C5 (amended): a body returning the string `"oops"` with
`ignore_errors` unset raises the wrapped `RuntimeError`. -/
theorem c5_nonmapping_fatal_unless_ignored_witness :
    executeOne
      ⟨"w", none, false, none, none, fun c => .ok (Value.str "oops") c⟩
      [] Value.null
      = .exc (.executionFailed
          (failWrapMsg "w" (.runtimeError
            ("a task must return None or a mapping, got " ++ strValue
              (Value.str "oops"))))) []
    ∧ failWrapMsg "w" (.runtimeError
        ("a task must return None or a mapping, got " ++ strValue
          (Value.str "oops")))
      = "Failed to execute task w. RuntimeError: a task must return None or a mapping, got oops" :=
  ⟨(c5_nonmapping_fatal_unless_ignored _ [] (Value.str "oops") []
    rfl rfl rfl rfl).1 rfl, by decide⟩

/-- **C6 (counterexample).**  The claim says the error produced by the
`fail` kind reaches the caller with exactly the literal message.  It does
not: `_execute_one` wraps an `Aborted` exception into
`ExecutionFailed("Execution aborted: " + msg)`, and that prefixed message
is what `Script.__call__` re-raises (the repository's own
`test_fail` expects "Execution aborted: I failed"). -/
theorem c6_fail_message_prefixed_counterexample :
    scriptCall [failTask "I failed"] []
      = .failed (.executionFailed "Execution aborted: I failed")
    ∧ "Execution aborted: I failed" ≠ "I failed" := by
  refine ⟨rfl, by decide⟩

/-- **C6 (amended).**  For every execution of the `fail` kind with message
`m` (and `ignore_errors` false), the error reaching the caller of
`Engine.execute` is `ExecutionFailed` with message
`"Execution aborted: " ++ m`: the literal message is kept after that fixed
prefix, and unlike other exceptions neither the task name nor the
exception class is added. -/
theorem c6_fail_message_aborted_prefix (m : String) (ctx : Ctx)
    (rest : List Task) :
    executeOne (failTask m) ctx Value.null
      = .exc (.executionFailed ("Execution aborted: " ++ m)) ctx
    ∧ scriptCall (failTask m :: rest) ctx
      = .failed (.executionFailed ("Execution aborted: " ++ m)) := by
  have h1 : executeOne (failTask m) ctx Value.null
      = .exc (.executionFailed ("Execution aborted: " ++ m)) ctx := by
    simp [executeOne, failTask, childCtx, parentAfter, handleBody,
      isAborted, excMsg]
  refine ⟨h1, ?_⟩
  simp only [scriptCall, taskCall, failTask, h1]
  rfl

/-- **C1.**  For every script whose first tasks run normally and then
contain a `return` task nested inside a `block`, execution halts there:
the finish signal propagates through the block to the script runner,
`Engine.execute` returns the carried result value, and the tasks after the
`return` never execute (the outcome is the same for every suffix
`post`). -/
theorem c1_return_in_block_halts
    (pre post : List Task) (ctx ctx' : Ctx) (v : Value)
    (hpre : runTasksSeq pre ctx = .ok () ctx')
    (hv : v ≠ Value.undefined) :
    scriptCall (pre ++ mkBlock [returnTask v] :: post) ctx = .finished v := by
  induction pre generalizing ctx with
  | nil =>
      cases v with
      | undefined => exact absurd rfl hv
      | null => rfl
      | bool b => rfl
      | int n => rfl
      | str s => rfl
      | list xs => rfl
      | map kvs => rfl
      | result fs => rfl
  | cons t rest ih =>
      rw [List.cons_append]
      cases htc : taskCall t ctx with
      | ok u c =>
          simp only [runTasksSeq, htc] at hpre
          simp only [scriptCall, htc]
          exact ih c hpre
      | exc e c =>
          simp only [runTasksSeq, htc] at hpre
          exact Out.noConfusion hpre
      | finish w =>
          simp only [runTasksSeq, htc] at hpre
          exact Out.noConfusion hpre

/-- Witness for C1: after a `vars` task, a `block`-nested `return: 42`
ends the script with 42 even though a `fail` task follows. -/
theorem c1_return_in_block_halts_witness :
    scriptCall
      ([varsTask [("x", Value.int 1)]]
        ++ mkBlock [returnTask (Value.int 42)] :: [failTask "boom"]) []
      = .finished (Value.int 42) :=
  c1_return_in_block_halts [varsTask [("x", Value.int 1)]] [failTask "boom"]
    [] [("x", Value.int 1)] (Value.int 42) rfl
    (fun h => Value.noConfusion h)

/-- **C9.**  For every task with `ignore_errors=true`, the finish signal
raised by a `return` in its body is not caught or converted to a failed
`Result`: `FinishScript` derives from `BaseException`, passes the
`except Exception` handler untouched, and still terminates the script
successfully with its carried value. -/
theorem c9_finish_passes_ignore_errors
    (t : Task) (ctx : Ctx) (v : Value) (rest : List Task)
    (_hig : t.ignore_errors = true)
    (hwhen : t.whenConds = none) (hloop : t.loop = none)
    (hbody : t.body ctx = .finish v) (hv : v ≠ Value.undefined) :
    executeOne t ctx Value.null = .finish v
    ∧ scriptCall (t :: rest) ctx = .finished v := by
  have h1 : executeOne t ctx Value.null = .finish v := by
    simp only [executeOne, hwhen, childCtx, hloop, handleBody, hbody]
  refine ⟨h1, ?_⟩
  simp only [scriptCall, taskCall, hloop, h1]
  cases v with
  | undefined => exact absurd rfl hv
  | null => rfl
  | bool b => rfl
  | int n => rfl
  | str s => rfl
  | list xs => rfl
  | map kvs => rfl
  | result fs => rfl

/-- Witness for C9: a task whose body executes a nested `return 7` with
`ignore_errors: true` still finishes the script with 7. -/
theorem c9_finish_passes_ignore_errors_witness :
    scriptCall
      [⟨"t", none, true, none, none, fun _ => .finish (Value.int 7)⟩,
       failTask "never"] []
      = .finished (Value.int 7) :=
  (c9_finish_passes_ignore_errors
    ⟨"t", none, true, none, none, fun _ => .finish (Value.int 7)⟩
    [] (Value.int 7) [failTask "never"] rfl rfl rfl rfl
    (fun h => Value.noConfusion h)).2

/-- A single loop iteration whose body returns a mapping produces the
`Result` of that mapping, leaving the parent scope untouched. -/
theorem executeOne_loop_iteration (t : Task) (f : Ctx → List Value)
    (ctx : Ctx) (it : Value) (kvs : List (String × Value)) (c : Ctx)
    (hloop : t.loop = some f) (hwhen : t.whenConds = none)
    (hbody : t.body (setVar (ctxCopy ctx) "item" it) = .ok (Value.map kvs) c) :
    executeOne t ctx it = .ok (mkResult kvs none false) ctx := by
  simp only [executeOne, hwhen, childCtx, hloop, handleBody, hbody,
    parentAfter]

/-- Under `bodyRuns`, the iteration comprehension returns exactly one
`Result` per item, in order, and the parent scope unchanged. -/
theorem runIters_bodyRuns (t : Task) (f : Ctx → List Value) (ctx : Ctx)
    (hloop : t.loop = some f) (hwhen : t.whenConds = none) :
    ∀ (items : List Value) (vss : List (List (String × Value)))
      (cs : List Ctx), bodyRuns t ctx items vss cs →
      runIters t ctx items
        = .ok (vss.map fun kvs => mkResult kvs none false) ctx := by
  intro items
  induction items with
  | nil =>
      intro vss cs hrun
      cases vss with
      | nil =>
          cases cs with
          | nil => rfl
          | cons c cs' => exact absurd hrun (by simp [bodyRuns])
      | cons kvs vss' => exact absurd hrun (by simp [bodyRuns])
  | cons it its ih =>
      intro vss cs hrun
      cases vss with
      | nil => exact absurd hrun (by simp [bodyRuns])
      | cons kvs vss' =>
          cases cs with
          | nil => exact absurd hrun (by simp [bodyRuns])
          | cons c cs' =>
              obtain ⟨hbody, hrest⟩ := hrun
              simp only [runIters,
                executeOne_loop_iteration t f ctx it kvs c hloop hwhen hbody,
                ih vss' cs' hrest, List.map]

/-- Length agreement implied by `bodyRuns`: one body run per item. -/
theorem bodyRuns_length (t : Task) (ctx : Ctx) :
    ∀ (items : List Value) (vss : List (List (String × Value)))
      (cs : List Ctx), bodyRuns t ctx items vss cs →
      items.length = vss.length := by
  intro items
  induction items with
  | nil =>
      intro vss cs hrun
      cases vss with
      | nil => rfl
      | cons kvs vss' => exact absurd hrun (by simp [bodyRuns])
  | cons it its ih =>
      intro vss cs hrun
      cases vss with
      | nil => exact absurd hrun (by simp [bodyRuns])
      | cons kvs vss' =>
          cases cs with
          | nil => exact absurd hrun (by simp [bodyRuns])
          | cons c cs' =>
              obtain ⟨_, hrest⟩ := hrun
              simpa using ih vss' cs' hrest

/-- **C2.**  For every task with a `loop` resolving to a sequence of
items, the body runs once per item, in the sequence's order, each
iteration against a child scope that is a shallow copy of the task's
scope with `item` bound to the current element (the `bodyRuns`
hypothesis); the per-iteration `Result`s are collected into a list in
iteration order, and with `register` set the scope entry under that name
is the mapping `\x7b"results": [Result, ...]\x7d` rather than a single
`Result`. -/
theorem c2_loop_iterates_in_order
    (t : Task) (f : Ctx → List Value) (r : String) (ctx : Ctx)
    (items : List Value) (vss : List (List (String × Value))) (cs : List Ctx)
    (hloop : t.loop = some f) (hreg : t.register = some r)
    (hwhen : t.whenConds = none) (hitems : f ctx = items)
    (hrun : bodyRuns t ctx items vss cs) :
    taskCall t ctx = .ok () (setVar ctx r (Value.map
      [("results", Value.list (vss.map fun kvs =>
          Value.result (mkResult kvs none false).fields))]))
    ∧ items.length = vss.length := by
  refine ⟨?_, bodyRuns_length t ctx items vss cs hrun⟩
  simp only [taskCall, hloop, hitems,
    runIters_bodyRuns t f ctx hloop hwhen items vss cs hrun, hreg,
    List.map_map]
  rfl

/-- Witness for C2: looping over `[1, 2]` with a body returning
`\x7b"x": item\x7d` registers
`\x7b"results": [Result(x=1), Result(x=2)]\x7d` on the parent scope. -/
theorem c2_loop_iterates_in_order_witness :
    taskCall
      ⟨"t", none, false, some "myvar", some (fun _ => [Value.int 1, Value.int 2]),
       fun c => .ok (Value.map [("x", (lookupVar c "item").getD Value.null)]) c⟩
      [("a", Value.int 5)]
      = .ok () (setVar [("a", Value.int 5)] "myvar" (Value.map
          [("results", Value.list
            ([[("x", Value.int 1)], [("x", Value.int 2)]].map fun kvs =>
              Value.result (mkResult kvs none false).fields))])) :=
  (c2_loop_iterates_in_order
    ⟨"t", none, false, some "myvar", some (fun _ => [Value.int 1, Value.int 2]),
     fun c => .ok (Value.map [("x", (lookupVar c "item").getD Value.null)]) c⟩
    (fun _ => [Value.int 1, Value.int 2]) "myvar" [("a", Value.int 5)]
    [Value.int 1, Value.int 2]
    [[("x", Value.int 1)], [("x", Value.int 2)]]
    [[("a", Value.int 5), ("item", Value.int 1)],
     [("a", Value.int 5), ("item", Value.int 2)]]
    rfl rfl rfl rfl ⟨rfl, rfl, trivial⟩).1

/-- With a `loop`, the scope handed back to the parent is always the
original parent scope (the body only ever mutated the discarded copy). -/
theorem parentAfter_loop (t : Task) (f : Ctx → List Value)
    (hloop : t.loop = some f) (ctx : Ctx) :
    parentAfter t ctx = fun _ => ctx := by
  funext c
  simp [parentAfter, hloop]

/-- With a `loop`, a single execution runs against the copy with `item`
bound. -/
theorem childCtx_loop (t : Task) (f : Ctx → List Value)
    (hloop : t.loop = some f) (ctx : Ctx) (item : Value) :
    childCtx t ctx item = setVar (ctxCopy ctx) "item" item := by
  simp [childCtx, hloop]

theorem handleBody_ok_ctx (t : Task) (c0 ctx : Ctx) (r : TResult) (c : Ctx)
    (h : handleBody t c0 (fun _ => ctx) = .ok r c) : c = ctx := by
  simp only [handleBody] at h
  repeat' split at h
  all_goals
    first
      | exact Out.noConfusion h
      | (injection h with h1 h2; exact h2.symm)

theorem handleBody_exc_ctx (t : Task) (c0 ctx : Ctx) (e : Exc) (c : Ctx)
    (h : handleBody t c0 (fun _ => ctx) = .exc e c) : c = ctx := by
  simp only [handleBody] at h
  repeat' split at h
  all_goals
    first
      | exact Out.noConfusion h
      | (injection h with h1 h2; exact h2.symm)

theorem executeOne_when_none (t : Task) (ctx : Ctx) (item : Value)
    (hwhen : t.whenConds = none) :
    executeOne t ctx item
      = handleBody t (childCtx t ctx item) (parentAfter t ctx) := by
  simp only [executeOne, hwhen]

theorem executeOne_when_true (t : Task) (ctx : Ctx) (item : Value)
    (conds : List (Ctx → Except Exc Value))
    (hwhen : t.whenConds = some conds)
    (htrue : evalWhen conds (childCtx t ctx item) = .ok true) :
    executeOne t ctx item
      = handleBody t (childCtx t ctx item) (parentAfter t ctx) := by
  simp only [executeOne, hwhen, htrue]

theorem executeOne_loop_ok_ctx (t : Task) (f : Ctx → List Value)
    (hloop : t.loop = some f) (ctx : Ctx) (item : Value) (r : TResult)
    (c : Ctx) (h : executeOne t ctx item = .ok r c) : c = ctx := by
  cases hw : t.whenConds with
  | none =>
      rw [executeOne_when_none t ctx item hw,
          parentAfter_loop t f hloop ctx] at h
      exact handleBody_ok_ctx t _ ctx r c h
  | some conds =>
      cases hev : evalWhen conds (childCtx t ctx item) with
      | error e =>
          rw [executeOne_when_raises t ctx item conds e hw hev] at h
          exact Out.noConfusion h
      | ok b =>
          cases b with
          | false =>
              rw [executeOne_when_false t ctx item conds hw hev,
                  parentAfter_childCtx] at h
              injection h with h1 h2
              exact h2.symm
          | true =>
              rw [executeOne_when_true t ctx item conds hw hev,
                  parentAfter_loop t f hloop ctx] at h
              exact handleBody_ok_ctx t _ ctx r c h

theorem executeOne_loop_exc_ctx (t : Task) (f : Ctx → List Value)
    (hloop : t.loop = some f) (ctx : Ctx) (item : Value) (e : Exc)
    (c : Ctx) (h : executeOne t ctx item = .exc e c) : c = ctx := by
  cases hw : t.whenConds with
  | none =>
      rw [executeOne_when_none t ctx item hw,
          parentAfter_loop t f hloop ctx] at h
      exact handleBody_exc_ctx t _ ctx e c h
  | some conds =>
      cases hev : evalWhen conds (childCtx t ctx item) with
      | error e' =>
          rw [executeOne_when_raises t ctx item conds e' hw hev] at h
          injection h with h1 h2
          exact h2.symm
      | ok b =>
          cases b with
          | false =>
              rw [executeOne_when_false t ctx item conds hw hev] at h
              exact Out.noConfusion h
          | true =>
              rw [executeOne_when_true t ctx item conds hw hev,
                  parentAfter_loop t f hloop ctx] at h
              exact handleBody_exc_ctx t _ ctx e c h

theorem runIters_ok_ctx (t : Task) (f : Ctx → List Value)
    (_hloop : t.loop = some f) (ctx : Ctx) :
    ∀ (items : List Value) (rs : List TResult) (c : Ctx),
      runIters t ctx items = .ok rs c → c = ctx := by
  intro items
  induction items with
  | nil =>
      intro rs c h
      injection h with h1 h2
      exact h2.symm
  | cons it its ih =>
      intro rs c h
      simp only [runIters] at h
      cases he : executeOne t ctx it with
      | ok r c1 =>
          rw [he] at h
          cases hr : runIters t ctx its with
          | ok rs' c2 =>
              rw [hr] at h
              injection h with h1 h2
              exact h2.symm.trans (ih rs' c2 hr)
          | exc e c2 => rw [hr] at h; exact Out.noConfusion h
          | finish v => rw [hr] at h; exact Out.noConfusion h
      | exc e c1 => rw [he] at h; exact Out.noConfusion h
      | finish v => rw [he] at h; exact Out.noConfusion h

theorem childCtx_body (t : Task) (b' : Ctx → Out Value) (ctx : Ctx)
    (item : Value) :
    childCtx { t with body := b' } ctx item = childCtx t ctx item := rfl

theorem parentAfter_body (t : Task) (b' : Ctx → Out Value) (ctx : Ctx) :
    parentAfter { t with body := b' } ctx = parentAfter t ctx := rfl

theorem handleBody_congr_all (t u : Task) (c0 : Ctx) (ret : Ctx → Ctx)
    (hn : u.name = t.name) (hig : u.ignore_errors = t.ignore_errors)
    (hb : u.body c0 = t.body c0) :
    handleBody u c0 ret = handleBody t c0 ret := by
  simp only [handleBody, hn, hig, hb]

theorem executeOne_congr_all (t u : Task) (ctx : Ctx) (item : Value)
    (hn : u.name = t.name) (hwc : u.whenConds = t.whenConds)
    (hl : u.loop = t.loop) (hig : u.ignore_errors = t.ignore_errors)
    (hb : u.body (childCtx t ctx item) = t.body (childCtx t ctx item)) :
    executeOne u ctx item = executeOne t ctx item := by
  have hcc : childCtx u ctx item = childCtx t ctx item := by
    simp only [childCtx, hl]
  have hpa : parentAfter u ctx = parentAfter t ctx := by
    funext c
    simp only [parentAfter, hl]
  cases hw : t.whenConds with
  | none =>
      rw [executeOne_when_none u ctx item (hwc.trans hw),
          executeOne_when_none t ctx item hw, hcc, hpa]
      exact handleBody_congr_all t u _ _ hn hig hb
  | some conds =>
      cases hev : evalWhen conds (childCtx t ctx item) with
      | error e =>
          rw [executeOne_when_raises u ctx item conds e (hwc.trans hw)
                (by rw [hcc]; exact hev),
              executeOne_when_raises t ctx item conds e hw hev, hn]
      | ok b =>
          cases b with
          | false =>
              rw [executeOne_when_false u ctx item conds (hwc.trans hw)
                    (by rw [hcc]; exact hev),
                  executeOne_when_false t ctx item conds hw hev,
                  parentAfter_childCtx, parentAfter_childCtx]
          | true =>
              rw [executeOne_when_true u ctx item conds (hwc.trans hw)
                    (by rw [hcc]; exact hev),
                  executeOne_when_true t ctx item conds hw hev, hcc, hpa]
              exact handleBody_congr_all t u _ _ hn hig hb

theorem executeOne_body_congr (t : Task) (b' : Ctx → Out Value)
    (ctx : Ctx) (item : Value)
    (hb : b' (childCtx t ctx item) = t.body (childCtx t ctx item)) :
    executeOne { t with body := b' } ctx item = executeOne t ctx item :=
  executeOne_congr_all t { t with body := b' } ctx item rfl rfl rfl rfl hb

theorem runIters_body_congr (t : Task) (f : Ctx → List Value)
    (b' : Ctx → Out Value) (ctx : Ctx) (hloop : t.loop = some f) :
    ∀ items : List Value,
      (∀ it ∈ items, b' (setVar (ctxCopy ctx) "item" it)
          = t.body (setVar (ctxCopy ctx) "item" it)) →
      runIters { t with body := b' } ctx items = runIters t ctx items := by
  intro items
  induction items with
  | nil => intro _; rfl
  | cons it its ih =>
      intro hagree
      have hb : b' (childCtx t ctx it) = t.body (childCtx t ctx it) := by
        rw [childCtx_loop t f hloop ctx it]
        exact hagree it (List.mem_cons_self it its)
      have hrest := ih fun x hx => hagree x (List.mem_cons_of_mem it hx)
      simp only [runIters, executeOne_body_congr t b' ctx it hb, hrest]

/-- **C8.**  For every looped task, bindings written during a loop
iteration (the `item` binding and any writes the body makes to the
iteration's child scope) are invisible to the parent and to other
iterations: (a) after the loop the parent scope's top-level keys are
unchanged except for the `register` entry, and (b) the loop's outcome
depends on the body's behaviour only at the pristine child scopes — a
copy of the parent with `item` bound — so no iteration can observe
another iteration's writes. -/
theorem c8_loop_iteration_isolation
    (t : Task) (f : Ctx → List Value) (ctx : Ctx)
    (hloop : t.loop = some f) :
    (∀ c', taskCall t ctx = .ok () c' →
      ∀ key, (∀ r, t.register = some r → key ≠ r) →
        lookupVar c' key = lookupVar ctx key)
    ∧ ∀ b' : Ctx → Out Value,
        (∀ it ∈ f ctx, b' (setVar (ctxCopy ctx) "item" it)
            = t.body (setVar (ctxCopy ctx) "item" it)) →
        taskCall { t with body := b' } ctx = taskCall t ctx := by
  constructor
  · intro c' h key hkey
    simp only [taskCall, hloop] at h
    cases hr : runIters t ctx (f ctx) with
    | ok rs c =>
        have hc : c = ctx := runIters_ok_ctx t f hloop ctx (f ctx) rs c hr
        rw [hr] at h
        cases hreg : t.register with
        | none =>
            rw [hreg] at h
            injection h with h1 h2
            rw [← h2, hc]
        | some r =>
            rw [hreg] at h
            injection h with h1 h2
            rw [← h2, hc]
            exact lookup_setVar_other ctx r key _ (hkey r hreg)
    | exc e c => rw [hr] at h; exact Out.noConfusion h
    | finish v => rw [hr] at h; exact Out.noConfusion h
  · intro b' hagree
    have key : ∀ u : Task, u.loop = some f → u.register = t.register →
        runIters u ctx (f ctx) = runIters t ctx (f ctx) →
        taskCall u ctx = taskCall t ctx := by
      intro u hul hur hri
      simp only [taskCall, hul, hloop, hri, hur]
    exact key { t with body := b' } hloop rfl
      (runIters_body_congr t f b' ctx hloop (f ctx) hagree)

/-- Witness for C8: a looped body that writes `y` into its child scope
leaves the parent's `a` binding untouched, and replacing the body by one
that agrees on the pristine child scopes does not change the outcome. -/
theorem c8_loop_iteration_isolation_witness :
    lookupVar
      (setVar [("a", Value.int 5)] "res" (Value.map
        [("results", Value.list
          [Value.result (mkResult [] none false).fields,
           Value.result (mkResult [] none false).fields])]))
      "a" = lookupVar [("a", Value.int 5)] "a" :=
  (c8_loop_iteration_isolation
    ⟨"t", none, false, some "res",
     some (fun _ => [Value.int 1, Value.int 2]),
     fun c => .ok Value.null (setVar c "y" (Value.int 9))⟩
    (fun _ => [Value.int 1, Value.int 2]) [("a", Value.int 5)] rfl).1
    _ rfl "a"
    (fun r hr => by injection hr with hr'; rw [← hr']; decide)

/-- **C3 (code bug).**  Kind resolution: zero matching keys do raise the
unknown-kind error and a single match loads that kind, but with two or
more matching keys `_load_task` evaluates `_types.InvalidTask`, an
attribute `_types.py` never defines (it defines `InvalidDefinition`
instead, while `_task.py`, `_engine.py`, `__init__.py` and the test suite
all expect `InvalidTask`), so the attribute access raises
`AttributeError` instead of the documented invalid-task ("ambiguous")
error. -/
theorem c3_ambiguous_kind_raises_attribute_error :
    loadTaskKind builtinKinds ["fail", "return"]
      = .error (.attributeError
          "module 'miniscript._types' has no attribute 'InvalidTask'")
    ∧ loadTaskKind builtinKinds ["fail", "return"]
        ≠ .error (.invalidTask "Item with keys fail,return is ambiguous")
    ∧ loadTaskKind builtinKinds ["nope"]
        = .error (.unknownTask "Task defined by nope is not known")
    ∧ loadTaskKind builtinKinds ["fail"] = .ok "fail" := by
  refine ⟨rfl, ?_, rfl, rfl⟩
  intro h
  rw [show loadTaskKind builtinKinds ["fail", "return"]
        = .error (.attributeError
            "module 'miniscript._types' has no attribute 'InvalidTask'")
      from rfl] at h
  injection h with h'
  exact Exc.noConfusion h'

end Miniscript
